import Mathlib

/-!
Shallow embedding of the tradeflow order-flow signal engine.

Sources embedded here:
  * src/components/event-engine.js          (EventEngine)
  * src/transition-detection-engine.js      (TransitionDetectionEngine)
  * src/components/velocity-pulse-engine.js (VelocityPulseEngine)

Modelling conventions:
  * JavaScript numbers are modelled as rationals (ℚ); trade counts and the
    window cap are modelled as ℕ.  The only non-rational value produced by
    the embedded code paths is the smoothing factor `1 - exp(-dt/tau)` of
    the velocity-pulse baselines; it is abstracted as a function parameter.
  * The result of JavaScript `Number(x)` coercion is modelled by `JSVal`:
    either a finite rational or `nonfinite` (NaN or an infinity), so that
    `Number.isFinite` checks translate directly.
  * `Date.now()` / `performance.now()` reads are passed in as explicit
    arguments (`sysNow`, `pnow`).
  * Mutating methods become functions `Config → State → ... → State` (or
    `State × Option Event` for `ingest`).
-/

attribute [local semireducible] Rat.add Rat.sub Rat.mul Rat.inv

/-- Trade side: "ASK" (buy aggressor) or "BID" (sell aggressor), the only two
side strings accepted by `normalizeTrade`. -/
inductive Side where
  | ASK
  | BID
deriving DecidableEq, Repr

/-- Opposite side. -/
def Side.other : Side → Side
  | .ASK => .BID
  | .BID => .ASK

/-- Result of JavaScript `Number(x)`: a finite rational, or a non-finite
value (NaN or ±Infinity), which `Number.isFinite` rejects. -/
inductive JSVal where
  | num (q : ℚ)
  | nonfinite
deriving DecidableEq, Repr

/-- Model of `Number.isFinite`. -/
def JSVal.isFinite : JSVal → Bool
  | .num _ => true
  | .nonfinite => false

/-- Dominance metric selector: `"volume"` or `"count"`.  The source compares
the config string against `"count"` and treats anything else as volume, so
two values suffice. -/
inductive Metric where
  | volume
  | count
deriving DecidableEq, Repr

/-- Raw tick as received by `ingest` / `normalizeTrade`: every field the
normalizer reads, each optional (absent models `undefined`).  Numeric fields
hold the `Number(...)`-coerced value. -/
structure RawTrade where
  timestamp : Option JSVal := none
  ts : Option JSVal := none
  side : Option String := none
  s : Option String := none
  volume : Option JSVal := none
  v : Option JSVal := none
  price : Option JSVal := none
  p : Option JSVal := none
  symbol : Option String := none
  sym : Option String := none
deriving DecidableEq, Repr

/-- Normalized tick `{ timestamp, side, volume, price, symbol }`.  The price
is kept as a `JSVal` because `Number(trade.price ?? trade.p ?? NaN)` may be
NaN and is never validated (it is unused by the engine logic). -/
structure Tick where
  timestamp : ℚ
  side : Side
  volume : ℚ
  price : JSVal
  symbol : String
deriving DecidableEq, Repr

/-- Model of `a ?? b` on two optional fields. -/
def coalesce {α : Type} (a b : Option α) : Option α :=
  a.orElse fun _ => b

/-- Side-string resolution of `normalizeTrade`: only `"ASK"` and `"BID"`
are accepted (`if (side !== "ASK" && side !== "BID") return null`). -/
def jsSide (sidev : Option String) : Option Side :=
  if sidev = some "ASK" then some .ASK
  else if sidev = some "BID" then some .BID
  else none

/-- EventEngine.normalizeTrade / TransitionDetectionEngine.normalizeTrade
(the two methods are textually identical).  `sysNow` stands for the
`Date.now()` fallback used when both timestamp aliases are absent.
Returns `none` exactly when the side is not resolvable to ASK/BID, or the
timestamp is not finite, or the volume is not finite. -/
def normalizeTrade (sysNow : ℚ) (trade : RawTrade) : Option Tick :=
  let tsv := (coalesce trade.timestamp trade.ts).getD (.num sysNow)
  let volv := (coalesce trade.volume trade.v).getD (.num 0)
  let pricev := (coalesce trade.price trade.p).getD .nonfinite
  let symv := (coalesce trade.symbol trade.sym).getD ""
  match jsSide (coalesce trade.side trade.s), tsv, volv with
  | some sd, .num tsq, .num volq =>
    some { timestamp := tsq, side := sd, volume := volq, price := pricev, symbol := symv }
  | _, _, _ => none

/-- Rolling-window prune, shared shape of `EventEngine.prune` and the window
part of `TransitionDetectionEngine.prune`: drop from the front every tick
with `timestamp < nowTs - windowMs` (the `while ... shift()` loop), then if
the length still exceeds `maxWindowTrades` remove the oldest excess (the
`splice(0, length - maxWindowTrades)` safety cap). -/
def pruneWindow (windowMs : ℚ) (maxWindowTrades : ℕ) (w : List Tick) (nowTs : ℚ) :
    List Tick :=
  let cutoff := nowTs - windowMs
  let w1 := w.dropWhile fun t => decide (t.timestamp < cutoff)
  if maxWindowTrades < w1.length then w1.drop (w1.length - maxWindowTrades) else w1

/-- Total volume on one side of a window (the `buyVol` / `sellVol`
accumulation loop of `compute`). -/
def sumSide (w : List Tick) (sd : Side) : ℚ :=
  w.foldl (fun acc t => if t.side = sd then acc + t.volume else acc) 0

/-- Trade count on one side of a window (the `buyCount` / `sellCount`
accumulation loop of `compute`). -/
def countSide (w : List Tick) (sd : Side) : ℕ :=
  w.foldl (fun acc t => if t.side = sd then acc + 1 else acc) 0

/-- Metric selection `config.dominanceMetric === "count" ? cnt : vol` used
for the dominance denominator and numerators. -/
def selMetric (m : Metric) (vol : ℚ) (cnt : ℕ) : ℚ :=
  match m with
  | .count => (cnt : ℚ)
  | .volume => vol

namespace EventEngine

/-- EventEngine configuration (constructor defaults of event-engine.js). -/
structure Config where
  windowMs : ℚ := 200
  maxWindowTrades : ℕ := 1000
  enterDominance : ℚ := 7/10
  exitDominance : ℚ := 6/10
  minTradesPerSec : ℚ := 20
  minTotalVolumeInWindow : ℚ := 0
  maxEventsPerSec : ℚ := 25
  cooldownMs : ℚ := 0
  requireSustainedMs : ℚ := 0
  lockSideMs : ℚ := 0
  dominanceMetric : Metric := .volume
deriving DecidableEq, Repr

/-- Per-window statistics object built by `EventEngine.compute`. -/
structure Computed where
  nowTs : ℚ
  buyVol : ℚ
  sellVol : ℚ
  totalVol : ℚ
  buyCount : ℕ
  sellCount : ℕ
  totalCount : ℕ
  tradesPerSec : ℚ
  volPerSec : ℚ
  buyRatio : ℚ
  sellRatio : ℚ
deriving DecidableEq, Repr

/-- EventEngine mutable state: `this.window`, `this.state`, and
`this.lastComputed`. -/
structure State where
  window : List Tick
  dominantSide : Option Side
  dominantSince : Option ℚ
  lockedUntil : ℚ
  lastEmitAt : ℚ
  cooldownUntil : ℚ
  lastComputed : Option Computed
deriving DecidableEq, Repr

/-- State produced by `EventEngine.reset()`. -/
def initState : State :=
  { window := [], dominantSide := none, dominantSince := none,
    lockedUntil := 0, lastEmitAt := 0, cooldownUntil := 0, lastComputed := none }

/-- EventEngine.reset as a function of the pre-state (which it ignores:
every field is overwritten). -/
def reset (_st : State) : State := initState

/-- EventEngine.compute: one pass over the window accumulating per-side
volume and count, then rates and dominance ratios.  Ratios are 0 unless the
selected denominator is strictly positive. -/
def compute (cfg : Config) (w : List Tick) (nowTs : ℚ) : Computed :=
  let buyVol := sumSide w .ASK
  let sellVol := sumSide w .BID
  let buyCount := countSide w .ASK
  let sellCount := countSide w .BID
  let totalVol := buyVol + sellVol
  let totalCount := buyCount + sellCount
  let windowSec := cfg.windowMs / 1000
  let tradesPerSec := if 0 < windowSec then (totalCount : ℚ) / windowSec else 0
  let volPerSec := if 0 < windowSec then totalVol / windowSec else 0
  let denom := selMetric cfg.dominanceMetric totalVol totalCount
  let buyMetric := selMetric cfg.dominanceMetric buyVol buyCount
  let sellMetric := selMetric cfg.dominanceMetric sellVol sellCount
  { nowTs := nowTs, buyVol := buyVol, sellVol := sellVol, totalVol := totalVol,
    buyCount := buyCount, sellCount := sellCount, totalCount := totalCount,
    tradesPerSec := tradesPerSec, volPerSec := volPerSec,
    buyRatio := if 0 < denom then buyMetric / denom else 0,
    sellRatio := if 0 < denom then sellMetric / denom else 0 }

/-- Ratio of the given side in a stats record
(`side === "ASK" ? s.buyRatio : s.sellRatio`). -/
def ratioOf (sd : Side) (s : Computed) : ℚ :=
  match sd with
  | .ASK => s.buyRatio
  | .BID => s.sellRatio

/-- Emitted "flow" event object. -/
structure Event where
  type : String
  timestamp : ℚ
  side : Side
  strength : ℚ
  tradesPerSec : ℚ
  volPerSec : ℚ
  windowMs : ℚ
  buyVol : ℚ
  sellVol : ℚ
  buyCount : ℕ
  sellCount : ℕ
deriving DecidableEq, Repr

/-- EventEngine._enterOrContinue: on a side change record the new side and
`dominantSince = now`, and arm the side lock only when `lockSideMs > 0`;
when already dominant on `side` nothing changes. -/
def enterOrContinue (cfg : Config) (st : State) (side : Side) (nowTs : ℚ) : State :=
  if st.dominantSide = some side then st
  else
    let st1 := { st with dominantSide := some side, dominantSince := some nowTs }
    if 0 < cfg.lockSideMs then { st1 with lockedUntil := nowTs + cfg.lockSideMs } else st1

/-- EventEngine._maybeExitDominance: if a side is dominant and its ratio has
fallen below `exitDominance`, clear the dominance state. -/
def maybeExitDominance (cfg : Config) (st : State) (s : Computed) : State :=
  match st.dominantSide with
  | none => st
  | some side =>
    if ratioOf side s < cfg.exitDominance then
      { st with dominantSide := none, dominantSince := none, lockedUntil := 0 }
    else st

/-- Tail of `EventEngine.ingest` from the emit-pacing check onward: gate on
`1000 / Math.max(1, maxEventsPerSec)` since `lastEmitAt`, require a dominant
side, then emit, recording `lastEmitAt` and (if configured) a cooldown. -/
def pacePhase (cfg : Config) (st : State) (s : Computed) (nowTs : ℚ) :
    State × Option Event :=
  let minInterval := 1000 / max 1 cfg.maxEventsPerSec
  if nowTs - st.lastEmitAt < minInterval then (st, none)
  else
    match st.dominantSide with
    | none => (st, none)
    | some side =>
      let st1 := { st with lastEmitAt := nowTs }
      let st2 := if 0 < cfg.cooldownMs then { st1 with cooldownUntil := nowTs + cfg.cooldownMs } else st1
      (st2, some { type := "flow", timestamp := nowTs, side := side,
                   strength := ratioOf side s,
                   tradesPerSec := s.tradesPerSec, volPerSec := s.volPerSec,
                   windowMs := cfg.windowMs, buyVol := s.buyVol, sellVol := s.sellVol,
                   buyCount := s.buyCount, sellCount := s.sellCount })

/-- Tail of `EventEngine.ingest` from the sustained-dominance check onward
(`requireSustainedMs > 0 && dominantSince != null && now - dominantSince <
requireSustainedMs` short-circuits to no event). -/
def emitPhase (cfg : Config) (st : State) (s : Computed) (nowTs : ℚ) :
    State × Option Event :=
  match st.dominantSince with
  | some d =>
    if 0 < cfg.requireSustainedMs ∧ nowTs - d < cfg.requireSustainedMs then (st, none)
    else pacePhase cfg st s nowTs
  | none => pacePhase cfg st s nowTs

/-- Stats computed inside one `ingest` step for the normalized tick `t`:
the stats of the pushed-and-pruned window at the tick's timestamp. -/
def stepStats (cfg : Config) (st : State) (t : Tick) : Computed :=
  compute cfg
    (pruneWindow cfg.windowMs cfg.maxWindowTrades (st.window ++ [t]) t.timestamp)
    t.timestamp

/-- State of the engine right after the push/prune/compute prefix of
`ingest` (window replaced, `lastComputed` refreshed, all other fields
untouched). -/
def stepState (cfg : Config) (st : State) (t : Tick) : State :=
  { st with
      window := pruneWindow cfg.windowMs cfg.maxWindowTrades (st.window ++ [t]) t.timestamp,
      lastComputed := some (stepStats cfg st t) }

/-- EventEngine.ingest: normalize (drop on failure), push + prune + compute
(`stepState` / `stepStats`), then cooldown gate, activity gates (each
exiting dominance on collapse), lock handling, hysteresis entry, and the
sustain/pacing/emit tail. -/
def ingest (cfg : Config) (st : State) (sysNow : ℚ) (raw : RawTrade) :
    State × Option Event :=
  match normalizeTrade sysNow raw with
  | none => (st, none)
  | some t =>
    let nowTs := t.timestamp
    let s := stepStats cfg st t
    let st1 := stepState cfg st t
    if nowTs < st1.cooldownUntil then (st1, none)
    else if s.tradesPerSec < cfg.minTradesPerSec then (maybeExitDominance cfg st1 s, none)
    else if s.totalVol < cfg.minTotalVolumeInWindow then (maybeExitDominance cfg st1 s, none)
    else if nowTs < st1.lockedUntil then
      emitPhase cfg (maybeExitDominance cfg st1 s) s nowTs
    else if cfg.enterDominance ≤ s.buyRatio ∧ ¬ cfg.enterDominance ≤ s.sellRatio then
      emitPhase cfg (enterOrContinue cfg st1 .ASK nowTs) s nowTs
    else if cfg.enterDominance ≤ s.sellRatio ∧ ¬ cfg.enterDominance ≤ s.buyRatio then
      emitPhase cfg (enterOrContinue cfg st1 .BID nowTs) s nowTs
    else (maybeExitDominance cfg st1 s, none)

/-- Fold `ingest` over a stream of raw ticks (each paired with the
`Date.now()` value observed at its arrival), collecting emitted events in
order. -/
def run (cfg : Config) : State → List (ℚ × RawTrade) → State × List Event
  | st, [] => (st, [])
  | st, (sysNow, raw) :: rest =>
    match ingest cfg st sysNow raw with
    | (st1, none) => run cfg st1 rest
    | (st1, some e) =>
      let r := run cfg st1 rest
      (r.1, e :: r.2)

end EventEngine

namespace TransitionEngine

/-- TransitionDetectionEngine configuration (constructor defaults of
transition-detection-engine.js). -/
structure Config where
  windowMs : ℚ := 1000
  maxWindowTrades : ℕ := 500
  thrustThreshold : ℚ := 6/10
  thrustChange : ℚ := 3/10
  thrustMinVelocity : ℚ := 20
  pullbackThreshold : ℚ := 3/10
  pullbackFade : ℚ := 2/10
  pullbackMinDuration : ℚ := 1000
  absorptionThreshold : ℚ := 2/10
  absorptionMinVelocity : ℚ := 20
  absorptionMinTrades : ℚ := 15
  historyDepth : ℚ := 3
  minEventInterval : ℚ := 500
  dominanceMetric : Metric := .volume
deriving DecidableEq, Repr

/-- Per-window statistics object built by
`TransitionDetectionEngine.compute` (signed imbalance instead of per-side
ratios). -/
structure Stats where
  nowTs : ℚ
  buyVol : ℚ
  sellVol : ℚ
  totalVol : ℚ
  buyCount : ℕ
  sellCount : ℕ
  totalCount : ℕ
  tradesPerSec : ℚ
  volPerSec : ℚ
  imbalance : ℚ
deriving DecidableEq, Repr

/-- One `{timestamp, imbalance, velocity}` sample of the imbalance history. -/
structure HistEntry where
  timestamp : ℚ
  imbalance : ℚ
  velocity : ℚ
deriving DecidableEq, Repr

/-- TransitionDetectionEngine mutable state.  `current` and
`thrustDirection` are kept as the literal strings the source stores
("NEUTRAL", "THRUST_UP", ..., "UP", "DOWN"). -/
structure State where
  window : List Tick
  imbalanceHistory : List HistEntry
  current : String
  entered : Option ℚ
  lastEventAt : ℚ
  thrustDirection : Option String
  lastComputed : Option Stats
deriving DecidableEq, Repr

/-- State produced by `TransitionDetectionEngine.reset()`. -/
def initState : State :=
  { window := [], imbalanceHistory := [], current := "NEUTRAL", entered := none,
    lastEventAt := 0, thrustDirection := none, lastComputed := none }

/-- TransitionDetectionEngine.reset as a function of the (ignored)
pre-state. -/
def reset (_st : State) : State := initState

/-- History pruning shared by `prune` and `updateHistory`: drop from the
front every sample older than `nowTs - historyDepth * 1000`. -/
def pruneHistory (historyDepth : ℚ) (hist : List HistEntry) (nowTs : ℚ) :
    List HistEntry :=
  let cutoff := nowTs - historyDepth * 1000
  hist.dropWhile fun e => decide (e.timestamp < cutoff)

/-- TransitionDetectionEngine.compute: per-side totals, rates, and the
signed imbalance `(buyMetric - sellMetric) / denom` (0 when the selected
denominator is not positive). -/
def computeStats (cfg : Config) (w : List Tick) (nowTs : ℚ) : Stats :=
  let buyVol := sumSide w .ASK
  let sellVol := sumSide w .BID
  let buyCount := countSide w .ASK
  let sellCount := countSide w .BID
  let totalVol := buyVol + sellVol
  let totalCount := buyCount + sellCount
  let windowSec := cfg.windowMs / 1000
  let tradesPerSec := if 0 < windowSec then (totalCount : ℚ) / windowSec else 0
  let volPerSec := if 0 < windowSec then totalVol / windowSec else 0
  let denom := selMetric cfg.dominanceMetric totalVol totalCount
  let buyMetric := selMetric cfg.dominanceMetric buyVol buyCount
  let sellMetric := selMetric cfg.dominanceMetric sellVol sellCount
  { nowTs := nowTs, buyVol := buyVol, sellVol := sellVol, totalVol := totalVol,
    buyCount := buyCount, sellCount := sellCount, totalCount := totalCount,
    tradesPerSec := tradesPerSec, volPerSec := volPerSec,
    imbalance := if 0 < denom then (buyMetric - sellMetric) / denom else 0 }

/-- TransitionDetectionEngine.updateHistory: append the new sample, then
prune to the last `historyDepth` seconds. -/
def updateHistory (cfg : Config) (hist : List HistEntry)
    (nowTs imbalance velocity : ℚ) : List HistEntry :=
  pruneHistory cfg.historyDepth
    (hist ++ [{ timestamp := nowTs, imbalance := imbalance, velocity := velocity }])
    nowTs

/-- One step of the closest-to-target scan in `getPreviousImbalance`. -/
def closerTo (target : ℚ) (best e : HistEntry) : HistEntry :=
  if |e.timestamp - target| < |best.timestamp - target| then e else best

/-- TransitionDetectionEngine.getPreviousImbalance: `none` when fewer than
two samples exist; otherwise the imbalance of the sample closest to one
second before the newest sample (nearest-neighbour scan starting from the
oldest sample, strict improvement only). -/
def getPreviousImbalance (hist : List HistEntry) : Option ℚ :=
  if hist.length < 2 then none
  else
    match hist with
    | [] => none
    | h0 :: rest =>
      let nowT := ((h0 :: rest).getLast (by simp)).timestamp
      let target := nowT - 1000
      some ((h0 :: rest).foldl (closerTo target) h0).imbalance

/-- Thrust-down condition of `detectTransition`. -/
def isThrustDown (cfg : Config) (stats : Stats) (previousImb : ℚ) : Bool :=
  decide (stats.imbalance < -cfg.thrustThreshold) &&
  decide (stats.imbalance - previousImb < -cfg.thrustChange) &&
  decide (cfg.thrustMinVelocity ≤ stats.tradesPerSec)

/-- Thrust-up condition of `detectTransition`. -/
def isThrustUp (cfg : Config) (stats : Stats) (previousImb : ℚ) : Bool :=
  decide (cfg.thrustThreshold < stats.imbalance) &&
  decide (cfg.thrustChange < stats.imbalance - previousImb) &&
  decide (cfg.thrustMinVelocity ≤ stats.tradesPerSec)

/-- Pullback-exhaustion condition of `detectTransition` (the previous
sample was a counter-trend excursion relative to the recorded thrust
direction, and the current sample has faded below `pullbackFade` with a
change magnitude above `pullbackFade`). -/
def isPullbackExhausted (cfg : Config) (stats : Stats) (previousImb : ℚ)
    (thrustDirection : Option String) : Bool :=
  let wasPullbackUp :=
    decide (cfg.pullbackThreshold < previousImb) && decide (thrustDirection = some "DOWN")
  let wasPullbackDown :=
    decide (previousImb < -cfg.pullbackThreshold) && decide (thrustDirection = some "UP")
  decide (|stats.imbalance| < cfg.pullbackFade) &&
  decide (cfg.pullbackFade < |stats.imbalance - previousImb|) &&
  (wasPullbackUp || wasPullbackDown)

/-- Absorption condition of `detectTransition` (balanced high activity while
the state machine is NEUTRAL). -/
def isAbsorption (cfg : Config) (stats : Stats) (current : String) : Bool :=
  decide (|stats.imbalance| < cfg.absorptionThreshold) &&
  decide (cfg.absorptionMinVelocity ≤ stats.tradesPerSec) &&
  decide (cfg.absorptionMinTrades ≤ (stats.totalCount : ℚ)) &&
  decide (current = "NEUTRAL")

/-- Transition objects returned by `detectTransition` (one constructor per
returned object shape). -/
inductive Transition where
  | thrustDown (imbalance change velocity : ℚ)
  | thrustUp (imbalance change velocity : ℚ)
  | pullbackExhaustion (trendDirection : Option String) (imbalance change : ℚ)
  | absorption (imbalance velocity totalVol : ℚ)
deriving DecidableEq, Repr

/-- Event-type string of a transition (the `type` field of the returned
object). -/
def Transition.typeString : Transition → String
  | .thrustDown _ _ _ => "THRUST_DOWN"
  | .thrustUp _ _ _ => "THRUST_UP"
  | .pullbackExhaustion _ _ _ => "PULLBACK_EXHAUSTION"
  | .absorption _ _ _ => "ABSORPTION"

/-- Classifier: is this transition one of the two thrust events? -/
def Transition.isThrust : Transition → Bool
  | .thrustDown _ _ _ => true
  | .thrustUp _ _ _ => true
  | _ => false

/-- TransitionDetectionEngine.detectTransition: nearest-neighbour previous
imbalance (no event when it is missing), then the four rules checked in
source order: thrust down, thrust up, pullback exhaustion, absorption. -/
def detectTransition (cfg : Config) (st : State) (stats : Stats) :
    Option Transition :=
  match getPreviousImbalance st.imbalanceHistory with
  | none => none
  | some previousImb =>
    let imbChange := stats.imbalance - previousImb
    if isThrustDown cfg stats previousImb then
      some (.thrustDown stats.imbalance imbChange stats.tradesPerSec)
    else if isThrustUp cfg stats previousImb then
      some (.thrustUp stats.imbalance imbChange stats.tradesPerSec)
    else if isPullbackExhausted cfg stats previousImb st.thrustDirection then
      some (.pullbackExhaustion st.thrustDirection stats.imbalance imbChange)
    else if isAbsorption cfg stats st.current then
      some (.absorption stats.imbalance stats.tradesPerSec stats.totalVol)
    else none

/-- TransitionDetectionEngine.updateState (the switch over
`transition.type`). -/
def updateState (st : State) (tr : Transition) (nowTs : ℚ) : State :=
  match tr with
  | .thrustUp _ _ _ =>
    { st with current := "THRUST_UP", thrustDirection := some "UP", entered := some nowTs }
  | .thrustDown _ _ _ =>
    { st with current := "THRUST_DOWN", thrustDirection := some "DOWN", entered := some nowTs }
  | .pullbackExhaustion _ _ _ => { st with current := "NEUTRAL" }
  | .absorption _ _ _ =>
    { st with current := "ABSORPTION", entered := some nowTs }

/-- Emitted "transition" event object (stats fields plus the
transition-specific payload spread into the object). -/
structure Event where
  type : String
  transitionType : String
  timestamp : ℚ
  imbalance : ℚ
  velocity : ℚ
  volPerSec : ℚ
  buyVol : ℚ
  sellVol : ℚ
  buyCount : ℕ
  sellCount : ℕ
  windowMs : ℚ
  payload : Transition
deriving DecidableEq, Repr

/-- TransitionDetectionEngine.ingest: normalize (drop on failure), push +
prune window and history, compute stats, append to the imbalance history,
then the event-pacing gate, rule detection, and state update on a match. -/
def ingest (cfg : Config) (st : State) (sysNow : ℚ) (raw : RawTrade) :
    State × Option Event :=
  match normalizeTrade sysNow raw with
  | none => (st, none)
  | some t =>
    let nowTs := t.timestamp
    let w := pruneWindow cfg.windowMs cfg.maxWindowTrades (st.window ++ [t]) nowTs
    let histP := pruneHistory cfg.historyDepth st.imbalanceHistory nowTs
    let stats := computeStats cfg w nowTs
    let hist2 := updateHistory cfg histP nowTs stats.imbalance stats.tradesPerSec
    let st1 := { st with window := w, imbalanceHistory := hist2, lastComputed := some stats }
    if nowTs - st.lastEventAt < cfg.minEventInterval then (st1, none)
    else
      match detectTransition cfg st1 stats with
      | none => (st1, none)
      | some tr =>
        let st2 := updateState st1 tr nowTs
        let st3 := { st2 with lastEventAt := nowTs }
        (st3, some { type := "transition", transitionType := tr.typeString,
                     timestamp := nowTs, imbalance := stats.imbalance,
                     velocity := stats.tradesPerSec, volPerSec := stats.volPerSec,
                     buyVol := stats.buyVol, sellVol := stats.sellVol,
                     buyCount := stats.buyCount, sellCount := stats.sellCount,
                     windowMs := cfg.windowMs, payload := tr })

end TransitionEngine

namespace VelocityPulseEngine

/-- VelocityPulseEngine configuration (constructor defaults of
velocity-pulse-engine.js).  Only the fields the embedded methods read are
listed. -/
structure Config where
  baselineWindowMs : ℚ := 45000
  sensitivityK : ℚ := 1
  minAbsTradesPerSec : ℚ := 4
  minAbsVolPerSec : ℚ := 7
  switchMarginZ : ℚ := 6/10
  minSwitchMs : ℚ := 60
deriving DecidableEq, Repr

/-- One `{ema, dev, init, lastTs}` baseline record. -/
structure Baseline where
  ema : ℚ
  dev : ℚ
  init : Bool
  lastTs : ℚ
deriving DecidableEq, Repr

/-- Baseline constructed by the VelocityPulseEngine constructor and by
`reset()`: `{ ema: 0, dev: 1, init: false, lastTs: 0 }`. -/
def freshBaseline : Baseline :=
  { ema := 0, dev := 1, init := false, lastTs := 0 }

/-- Pace and vol channels for one side (`this.state[side]`). -/
structure SideChannels where
  pace : Baseline
  vol : Baseline
deriving DecidableEq, Repr

/-- VelocityPulseEngine mutable state: per-side baselines, the `latest`
rates snapshot, and the active-side / scheduling fields. -/
structure State where
  bid : SideChannels
  ask : SideChannels
  latestTs : ℚ
  bidTps : ℚ
  bidVps : ℚ
  askTps : ℚ
  askVps : ℚ
  activeSide : Option Side
  activePaceZ : ℚ
  lastSwitchAt : ℚ
  nextFireAt : ℚ
deriving DecidableEq, Repr

/-- VelocityPulseEngine.reset as a function of the pre-state: clears the
active side, scores, switch time, and both baselines of both sides, sets
`nextFireAt` to the current `performance.now()` reading (`pnow`), and keeps
everything else (in particular `this.latest`). -/
def reset (pnow : ℚ) (st : State) : State :=
  { st with activeSide := none, activePaceZ := 0, lastSwitchAt := 0,
            nextFireAt := pnow,
            bid := { pace := freshBaseline, vol := freshBaseline },
            ask := { pace := freshBaseline, vol := freshBaseline } }

/-- VelocityPulseEngine._seedDev. -/
def seedDev (value : ℚ) : ℚ :=
  max (1/1000) (value * (1/4) + 1)

/-- VelocityPulseEngine._updateBaseline.  `alphaFn dt` models the smoothing
factor `1 - exp(-dt / max(2000, baselineWindowMs))` of `_alpha`, abstracted
because `exp` is not rational; every theorem below holds for an arbitrary
`alphaFn`.  The `st.lastTs || ts` fallback (JavaScript falsiness of 0) is
modelled explicitly. -/
def updateBaseline (alphaFn : ℚ → ℚ) (st : Baseline) (value ts : ℚ) : Baseline :=
  if !st.init then
    { ema := value, dev := seedDev value, init := true, lastTs := ts }
  else
    let lastT := if st.lastTs = 0 then ts else st.lastTs
    let dt := max 1 (ts - lastT)
    let a := alphaFn dt
    let ema := st.ema + a * (value - st.ema)
    let absErr := |value - ema|
    let dev := max (1/1000) (st.dev + a * (absErr - st.dev))
    { ema := ema, dev := dev, init := true, lastTs := ts }

/-- VelocityPulseEngine._paceThreshold. -/
def paceThreshold (cfg : Config) (b : Baseline) : ℚ :=
  max cfg.minAbsTradesPerSec (b.ema + cfg.sensitivityK * b.dev)

/-- VelocityPulseEngine._paceScoreZ. -/
def paceScoreZ (cfg : Config) (b : Baseline) (tps : ℚ) : ℚ :=
  (tps - paceThreshold cfg b) / max (1/1000) b.dev

/-- Candidate selection at the top of `_selectActiveSide`: among the two
pace z-scores, `none` unless one is positive, otherwise the larger one with
ties going to ASK (`askZ >= bidZ` picks ASK). -/
def candidateOf (bidZ askZ : ℚ) : Option (Side × ℚ) :=
  if bidZ > 0 ∨ askZ > 0 then
    if bidZ ≤ askZ then some (.ASK, askZ) else some (.BID, bidZ)
  else none

/-- VelocityPulseEngine._selectActiveSide: no candidate clears the active
side; with no current active side the candidate is adopted; the same side
just refreshes the score; a different side switches only after
`minSwitchMs` since the last switch and only if the candidate z-score beats
the recorded active z-score by `switchMarginZ`. -/
def selectActiveSide (cfg : Config) (pnow : ℚ) (st : State) (ts : ℚ) : State :=
  let bidZ := paceScoreZ cfg st.bid.pace st.bidTps
  let askZ := paceScoreZ cfg st.ask.pace st.askTps
  match candidateOf bidZ askZ with
  | none => { st with activeSide := none, activePaceZ := 0 }
  | some (c, cz) =>
    match st.activeSide with
    | none =>
      { st with activeSide := some c, activePaceZ := cz, lastSwitchAt := ts,
                nextFireAt := pnow }
    | some a =>
      if c = a then { st with activePaceZ := cz }
      else if ts - st.lastSwitchAt < cfg.minSwitchMs then st
      else if st.activePaceZ + cfg.switchMarginZ ≤ cz then
        { st with activeSide := some c, activePaceZ := cz, lastSwitchAt := ts,
                  nextFireAt := pnow }
      else st

/-- Rates argument of `updateFromRates`, after `Number(x)` coercion; the
`|| 0` fallback maps non-finite values to 0 (`jsOr0`). -/
structure Rates where
  buyTradesPerSec : JSVal
  sellTradesPerSec : JSVal
  buyVolPerSec : JSVal
  sellVolPerSec : JSVal
deriving DecidableEq, Repr

/-- Model of `Number(x) || 0`: a non-finite coercion result becomes 0. -/
def jsOr0 : JSVal → ℚ
  | .num q => q
  | .nonfinite => 0

/-- Baseline/latest update part of `updateFromRates` (everything before the
`_selectActiveSide` call).  ASK carries the buy rates, BID the sell rates. -/
def applyRates (alphaFn : ℚ → ℚ) (st : State) (r : Rates) (ts : ℚ) : State :=
  let askTps := jsOr0 r.buyTradesPerSec
  let bidTps := jsOr0 r.sellTradesPerSec
  let askVps := jsOr0 r.buyVolPerSec
  let bidVps := jsOr0 r.sellVolPerSec
  { st with latestTs := ts,
            askTps := askTps, bidTps := bidTps, askVps := askVps, bidVps := bidVps,
            ask := { pace := updateBaseline alphaFn st.ask.pace askTps ts,
                     vol := updateBaseline alphaFn st.ask.vol askVps ts },
            bid := { pace := updateBaseline alphaFn st.bid.pace bidTps ts,
                     vol := updateBaseline alphaFn st.bid.vol bidVps ts } }

/-- VelocityPulseEngine.updateFromRates: record the latest rates, update
the four baselines, then choose the active side based on pace. -/
def updateFromRates (alphaFn : ℚ → ℚ) (cfg : Config) (pnow : ℚ) (st : State)
    (r : Rates) (ts : ℚ) : State :=
  selectActiveSide cfg pnow (applyRates alphaFn st r ts) ts

end VelocityPulseEngine

/-! ## Theorems -/

/-- Helper: `getPreviousImbalance` yields nothing on a history of fewer
than two samples. -/
theorem getPreviousImbalance_short (hist : List TransitionEngine.HistEntry)
    (h : hist.length < 2) : TransitionEngine.getPreviousImbalance hist = none := by
  unfold TransitionEngine.getPreviousImbalance
  simp [h]

/-- Helper: `detectTransition` yields nothing when the imbalance history of
the state has fewer than two samples. -/
theorem detectTransition_short (cfg : TransitionEngine.Config)
    (st : TransitionEngine.State) (stats : TransitionEngine.Stats)
    (h : st.imbalanceHistory.length < 2) :
    TransitionEngine.detectTransition cfg st stats = none := by
  unfold TransitionEngine.detectTransition
  rw [getPreviousImbalance_short _ h]

/-- Helper: `_maybeExitDominance` either leaves the state untouched or
clears the dominant side because its ratio fell below `exitDominance`. -/
theorem maybeExitDominance_cases (cfg : EventEngine.Config)
    (st : EventEngine.State) (s : EventEngine.Computed) :
    EventEngine.maybeExitDominance cfg st s = st ∨
    ((EventEngine.maybeExitDominance cfg st s).dominantSide = none ∧
      ∃ side, st.dominantSide = some side ∧
        EventEngine.ratioOf side s < cfg.exitDominance) := by
  unfold EventEngine.maybeExitDominance
  split
  · left; rfl
  · rename_i side heq
    split_ifs with hr
    · right; exact ⟨rfl, side, heq, hr⟩
    · left; rfl

/-- Helper: `_maybeExitDominance` never touches `lastEmitAt`. -/
theorem maybeExitDominance_lastEmitAt (cfg : EventEngine.Config)
    (st : EventEngine.State) (s : EventEngine.Computed) :
    (EventEngine.maybeExitDominance cfg st s).lastEmitAt = st.lastEmitAt := by
  unfold EventEngine.maybeExitDominance
  split
  · rfl
  · split_ifs with hr <;> rfl

/-- Helper: `_enterOrContinue` always leaves the requested side dominant. -/
theorem enterOrContinue_dominantSide (cfg : EventEngine.Config)
    (st : EventEngine.State) (side : Side) (nowTs : ℚ) :
    (EventEngine.enterOrContinue cfg st side nowTs).dominantSide = some side := by
  unfold EventEngine.enterOrContinue
  split_ifs with h1 h2
  · exact h1
  · rfl
  · rfl

/-- Helper: on a fresh entry `_enterOrContinue` stamps `dominantSince` with
the current timestamp and arms the side lock exactly when `lockSideMs` is
positive. -/
theorem enterOrContinue_newEntry (cfg : EventEngine.Config)
    (st : EventEngine.State) (side : Side) (nowTs : ℚ)
    (h : st.dominantSide ≠ some side) :
    (EventEngine.enterOrContinue cfg st side nowTs).dominantSince = some nowTs ∧
    (0 < cfg.lockSideMs →
      (EventEngine.enterOrContinue cfg st side nowTs).lockedUntil = nowTs + cfg.lockSideMs) ∧
    (¬ 0 < cfg.lockSideMs →
      (EventEngine.enterOrContinue cfg st side nowTs).lockedUntil = st.lockedUntil) := by
  unfold EventEngine.enterOrContinue
  rw [if_neg h]
  split_ifs with h2
  · exact ⟨rfl, fun _ => rfl, fun hc => absurd h2 hc⟩
  · exact ⟨rfl, fun hc => absurd hc h2, fun _ => rfl⟩

/-- Helper: `_enterOrContinue` never touches `lastEmitAt`. -/
theorem enterOrContinue_lastEmitAt (cfg : EventEngine.Config)
    (st : EventEngine.State) (side : Side) (nowTs : ℚ) :
    (EventEngine.enterOrContinue cfg st side nowTs).lastEmitAt = st.lastEmitAt := by
  unfold EventEngine.enterOrContinue
  split_ifs <;> rfl

/-- Helper: the sustain/pacing/emit tail of `ingest` never modifies the
dominance bookkeeping fields. -/
theorem emitPhase_state_fields (cfg : EventEngine.Config)
    (st : EventEngine.State) (s : EventEngine.Computed) (nowTs : ℚ) :
    (EventEngine.emitPhase cfg st s nowTs).1.dominantSide = st.dominantSide ∧
    (EventEngine.emitPhase cfg st s nowTs).1.dominantSince = st.dominantSince ∧
    (EventEngine.emitPhase cfg st s nowTs).1.lockedUntil = st.lockedUntil := by
  unfold EventEngine.emitPhase EventEngine.pacePhase
  split <;> dsimp only <;> split_ifs <;>
    first
      | exact ⟨rfl, rfl, rfl⟩
      | (split <;> exact ⟨rfl, rfl, rfl⟩)

/-- Helper: one-step analysis of `ingest`'s effect on the dominance state:
either the three dominance fields are all unchanged, or the dominant side
was cleared because its ratio fell below `exitDominance`, or a fresh side
entered at ratio at least `enterDominance` with the opposite side below
`enterDominance`, stamping `dominantSince` and arming the lock exactly when
`lockSideMs` is positive. -/
theorem ingest_dominance_analysis (cfg : EventEngine.Config)
    (st : EventEngine.State) (sysNow : ℚ) (raw : RawTrade) (t : Tick)
    (hn : normalizeTrade sysNow raw = some t) :
    ((EventEngine.ingest cfg st sysNow raw).1.dominantSide = st.dominantSide ∧
     (EventEngine.ingest cfg st sysNow raw).1.dominantSince = st.dominantSince ∧
     (EventEngine.ingest cfg st sysNow raw).1.lockedUntil = st.lockedUntil) ∨
    ((EventEngine.ingest cfg st sysNow raw).1.dominantSide = none ∧
      ∃ side, st.dominantSide = some side ∧
        EventEngine.ratioOf side (EventEngine.stepStats cfg st t) < cfg.exitDominance) ∨
    (∃ side, (EventEngine.ingest cfg st sysNow raw).1.dominantSide = some side ∧
      st.dominantSide ≠ some side ∧
      cfg.enterDominance ≤ EventEngine.ratioOf side (EventEngine.stepStats cfg st t) ∧
      EventEngine.ratioOf side.other (EventEngine.stepStats cfg st t) < cfg.enterDominance ∧
      (EventEngine.ingest cfg st sysNow raw).1.dominantSince = some t.timestamp ∧
      (0 < cfg.lockSideMs →
        (EventEngine.ingest cfg st sysNow raw).1.lockedUntil = t.timestamp + cfg.lockSideMs) ∧
      (¬ 0 < cfg.lockSideMs →
        (EventEngine.ingest cfg st sysNow raw).1.lockedUntil = st.lockedUntil)) := by
  have gateCase :
      ∀ st2 : EventEngine.State × Option EventEngine.Event,
        st2 = (EventEngine.maybeExitDominance cfg (EventEngine.stepState cfg st t)
                (EventEngine.stepStats cfg st t), none) →
        (st2.1.dominantSide = st.dominantSide ∧
         st2.1.dominantSince = st.dominantSince ∧
         st2.1.lockedUntil = st.lockedUntil) ∨
        (st2.1.dominantSide = none ∧
          ∃ side, st.dominantSide = some side ∧
            EventEngine.ratioOf side (EventEngine.stepStats cfg st t) < cfg.exitDominance) := by
    rintro st2 rfl
    rcases maybeExitDominance_cases cfg (EventEngine.stepState cfg st t)
        (EventEngine.stepStats cfg st t) with he | ⟨h0, side, hside, hr⟩
    · exact Or.inl ⟨by rw [he]; rfl, by rw [he]; rfl, by rw [he]; rfl⟩
    · exact Or.inr ⟨h0, side, hside, hr⟩
  have enterCase :
      ∀ side : Side,
        cfg.enterDominance ≤ EventEngine.ratioOf side (EventEngine.stepStats cfg st t) →
        EventEngine.ratioOf side.other (EventEngine.stepStats cfg st t) < cfg.enterDominance →
        ∀ st2 : EventEngine.State × Option EventEngine.Event,
        st2 = EventEngine.emitPhase cfg
                (EventEngine.enterOrContinue cfg (EventEngine.stepState cfg st t) side t.timestamp)
                (EventEngine.stepStats cfg st t) t.timestamp →
        (st2.1.dominantSide = st.dominantSide ∧
         st2.1.dominantSince = st.dominantSince ∧
         st2.1.lockedUntil = st.lockedUntil) ∨
        (∃ sd, st2.1.dominantSide = some sd ∧ st.dominantSide ≠ some sd ∧
          cfg.enterDominance ≤ EventEngine.ratioOf sd (EventEngine.stepStats cfg st t) ∧
          EventEngine.ratioOf sd.other (EventEngine.stepStats cfg st t) < cfg.enterDominance ∧
          st2.1.dominantSince = some t.timestamp ∧
          (0 < cfg.lockSideMs → st2.1.lockedUntil = t.timestamp + cfg.lockSideMs) ∧
          (¬ 0 < cfg.lockSideMs → st2.1.lockedUntil = st.lockedUntil)) := by
    intro side hge hlt st2 hst2
    obtain ⟨e1, e2, e3⟩ := emitPhase_state_fields cfg
      (EventEngine.enterOrContinue cfg (EventEngine.stepState cfg st t) side t.timestamp)
      (EventEngine.stepStats cfg st t) t.timestamp
    rw [hst2]
    by_cases hprev : st.dominantSide = some side
    · have hprev2 : (EventEngine.stepState cfg st t).dominantSide = some side := hprev
      have hE : EventEngine.enterOrContinue cfg (EventEngine.stepState cfg st t) side t.timestamp
          = EventEngine.stepState cfg st t := by
        unfold EventEngine.enterOrContinue
        rw [if_pos hprev2]
      exact Or.inl ⟨by rw [e1, hE]; rfl, by rw [e2, hE]; rfl, by rw [e3, hE]; rfl⟩
    · obtain ⟨n1, n2, n3⟩ := enterOrContinue_newEntry cfg (EventEngine.stepState cfg st t)
        side t.timestamp hprev
      refine Or.inr ⟨side, ?_, hprev, hge, hlt, ?_, ?_, ?_⟩
      · rw [e1, enterOrContinue_dominantSide]
      · rw [e2]; exact n1
      · intro hl; rw [e3]; exact n2 hl
      · intro hl; rw [e3]; exact n3 hl
  simp only [EventEngine.ingest, hn]
  split
  · exact Or.inl ⟨rfl, rfl, rfl⟩
  · split
    · rcases gateCase _ rfl with h | h
      · exact Or.inl h
      · exact Or.inr (Or.inl h)
    · split
      · rcases gateCase _ rfl with h | h
        · exact Or.inl h
        · exact Or.inr (Or.inl h)
      · split
        · -- locked: exit-on-collapse still applies, then the emit tail
          obtain ⟨e1, e2, e3⟩ := emitPhase_state_fields cfg
            (EventEngine.maybeExitDominance cfg (EventEngine.stepState cfg st t)
              (EventEngine.stepStats cfg st t))
            (EventEngine.stepStats cfg st t) t.timestamp
          rcases maybeExitDominance_cases cfg (EventEngine.stepState cfg st t)
              (EventEngine.stepStats cfg st t) with he | ⟨h0, side, hside, hr⟩
          · exact Or.inl ⟨by rw [e1, he]; rfl, by rw [e2, he]; rfl, by rw [e3, he]; rfl⟩
          · exact Or.inr (Or.inl ⟨by rw [e1]; exact h0, side, hside, hr⟩)
        · split
          · rename_i hcond
            rcases enterCase .ASK hcond.1 (not_le.mp hcond.2) _ rfl with h | h
            · exact Or.inl h
            · exact Or.inr (Or.inr h)
          · split
            · rename_i hcond
              rcases enterCase .BID hcond.1 (not_le.mp hcond.2) _ rfl with h | h
              · exact Or.inl h
              · exact Or.inr (Or.inr h)
            · rcases gateCase _ rfl with h | h
              · exact Or.inl h
              · exact Or.inr (Or.inl h)

/-- C4: on any single ingestion of the Dominance Detector, `dominantSide`
can change only by an entry whose new side's ratio (over the stats of that
ingestion) is at least `enterDominance`, or by an exit whose former side's
ratio is below `exitDominance`; consequently, while every sample's ratios
stay strictly between `exitDominance` and `enterDominance`, `dominantSide`
never changes. -/
theorem hysteresis_change_requires_threshold (cfg : EventEngine.Config)
    (st : EventEngine.State) (sysNow : ℚ) (raw : RawTrade) (t : Tick)
    (hn : normalizeTrade sysNow raw = some t)
    (hch : (EventEngine.ingest cfg st sysNow raw).1.dominantSide ≠ st.dominantSide) :
    (∃ side, (EventEngine.ingest cfg st sysNow raw).1.dominantSide = some side ∧
      cfg.enterDominance ≤ EventEngine.ratioOf side (EventEngine.stepStats cfg st t)) ∨
    ((EventEngine.ingest cfg st sysNow raw).1.dominantSide = none ∧
      ∃ side, st.dominantSide = some side ∧
        EventEngine.ratioOf side (EventEngine.stepStats cfg st t) < cfg.exitDominance) := by
  rcases ingest_dominance_analysis cfg st sysNow raw t hn with
    ⟨h1, _, _⟩ | h | ⟨side, h1, _, h3, _, _, _⟩
  · exact absurd h1 hch
  · exact Or.inr h
  · exact Or.inl ⟨side, h1, h3⟩

/-- Witness for C4: a dominance entry really occurs (so the hypotheses are
satisfiable) and it is classified as an entry at ratio at least
`enterDominance`. -/
theorem hysteresis_change_requires_threshold_witness :
    (∃ side,
      (EventEngine.ingest { minTradesPerSec := 0 } EventEngine.initState 0
        { side := some "ASK", timestamp := some (.num 1000), volume := some (.num 10) }).1.dominantSide
          = some side ∧
      EventEngine.Config.enterDominance { minTradesPerSec := 0 } ≤
        EventEngine.ratioOf side (EventEngine.stepStats { minTradesPerSec := 0 }
          EventEngine.initState
          { timestamp := 1000, side := .ASK, volume := 10, price := .nonfinite, symbol := "" })) ∨
    ((EventEngine.ingest { minTradesPerSec := 0 } EventEngine.initState 0
        { side := some "ASK", timestamp := some (.num 1000), volume := some (.num 10) }).1.dominantSide
          = none ∧
      ∃ side, EventEngine.initState.dominantSide = some side ∧
        EventEngine.ratioOf side (EventEngine.stepStats { minTradesPerSec := 0 }
          EventEngine.initState
          { timestamp := 1000, side := .ASK, volume := 10, price := .nonfinite, symbol := "" })
          < EventEngine.Config.exitDominance { minTradesPerSec := 0 }) :=
  hysteresis_change_requires_threshold { minTradesPerSec := 0 } EventEngine.initState 0
    { side := some "ASK", timestamp := some (.num 1000), volume := some (.num 10) }
    { timestamp := 1000, side := .ASK, volume := 10, price := .nonfinite, symbol := "" }
    (by decide) (by decide)

/-- C5: a side becomes newly dominant on an ingestion only when its ratio
reaches `enterDominance` while the opposite side's ratio does not; the new
entry stamps `dominantSince` with the tick timestamp, sets `lockedUntil`
to `now + lockSideMs` exactly when `lockSideMs` is positive, and leaves
`lockedUntil` untouched otherwise. -/
theorem entry_requires_unopposed_threshold (cfg : EventEngine.Config)
    (st : EventEngine.State) (sysNow : ℚ) (raw : RawTrade) (t : Tick) (side : Side)
    (hn : normalizeTrade sysNow raw = some t)
    (hprev : st.dominantSide ≠ some side)
    (hnew : (EventEngine.ingest cfg st sysNow raw).1.dominantSide = some side) :
    cfg.enterDominance ≤ EventEngine.ratioOf side (EventEngine.stepStats cfg st t) ∧
    EventEngine.ratioOf side.other (EventEngine.stepStats cfg st t) < cfg.enterDominance ∧
    (EventEngine.ingest cfg st sysNow raw).1.dominantSince = some t.timestamp ∧
    (0 < cfg.lockSideMs →
      (EventEngine.ingest cfg st sysNow raw).1.lockedUntil = t.timestamp + cfg.lockSideMs) ∧
    (¬ 0 < cfg.lockSideMs →
      (EventEngine.ingest cfg st sysNow raw).1.lockedUntil = st.lockedUntil) := by
  rcases ingest_dominance_analysis cfg st sysNow raw t hn with
    ⟨h1, _, _⟩ | ⟨h1, _⟩ | ⟨sd, h1, _, h3, h4, h5, h6, h7⟩
  · rw [hnew] at h1; exact absurd h1.symm hprev
  · rw [hnew] at h1; exact Option.noConfusion h1
  · have hsd : sd = side := Option.some.inj (h1.symm.trans hnew)
    subst hsd
    exact ⟨h3, h4, h5, h6, h7⟩

/-- Witness for C5: a concrete fresh entry (with a positive `lockSideMs`)
satisfying the hypotheses, with the conclusion evaluated there. -/
theorem entry_requires_unopposed_threshold_witness :
    EventEngine.Config.enterDominance { minTradesPerSec := 0, lockSideMs := 5000 } ≤
      EventEngine.ratioOf .ASK (EventEngine.stepStats { minTradesPerSec := 0, lockSideMs := 5000 }
        EventEngine.initState
        { timestamp := 1000, side := .ASK, volume := 10, price := .nonfinite, symbol := "" }) ∧
    EventEngine.ratioOf (Side.other .ASK)
      (EventEngine.stepStats { minTradesPerSec := 0, lockSideMs := 5000 }
        EventEngine.initState
        { timestamp := 1000, side := .ASK, volume := 10, price := .nonfinite, symbol := "" })
      < EventEngine.Config.enterDominance { minTradesPerSec := 0, lockSideMs := 5000 } ∧
    (EventEngine.ingest { minTradesPerSec := 0, lockSideMs := 5000 } EventEngine.initState 0
      { side := some "ASK", timestamp := some (.num 1000), volume := some (.num 10) }).1.dominantSince
        = some (1000 : ℚ) ∧
    (0 < EventEngine.Config.lockSideMs { minTradesPerSec := 0, lockSideMs := 5000 } →
      (EventEngine.ingest { minTradesPerSec := 0, lockSideMs := 5000 } EventEngine.initState 0
        { side := some "ASK", timestamp := some (.num 1000), volume := some (.num 10) }).1.lockedUntil
          = 1000 + EventEngine.Config.lockSideMs { minTradesPerSec := 0, lockSideMs := 5000 }) ∧
    (¬ 0 < EventEngine.Config.lockSideMs { minTradesPerSec := 0, lockSideMs := 5000 } →
      (EventEngine.ingest { minTradesPerSec := 0, lockSideMs := 5000 } EventEngine.initState 0
        { side := some "ASK", timestamp := some (.num 1000), volume := some (.num 10) }).1.lockedUntil
          = EventEngine.initState.lockedUntil) :=
  entry_requires_unopposed_threshold { minTradesPerSec := 0, lockSideMs := 5000 }
    EventEngine.initState 0
    { side := some "ASK", timestamp := some (.num 1000), volume := some (.num 10) }
    { timestamp := 1000, side := .ASK, volume := 10, price := .nonfinite, symbol := "" }
    .ASK (by decide) (by decide) (by decide)

/-- C6: `detectTransition` checks its rules in the fixed order thrust-down,
thrust-up, pullback exhaustion, absorption, and returns the first match: if
either thrust condition holds the result is a thrust event; pullback
exhaustion is returned only when neither thrust fires; absorption only when
no earlier rule fires. -/
theorem transition_rule_precedence (cfg : TransitionEngine.Config)
    (st : TransitionEngine.State) (stats : TransitionEngine.Stats) (prev : ℚ)
    (hprev : TransitionEngine.getPreviousImbalance st.imbalanceHistory = some prev) :
    ((TransitionEngine.isThrustDown cfg stats prev || TransitionEngine.isThrustUp cfg stats prev) = true →
      ∃ tr, TransitionEngine.detectTransition cfg st stats = some tr ∧
        tr.isThrust = true) ∧
    (TransitionEngine.isThrustDown cfg stats prev = false →
      TransitionEngine.isThrustUp cfg stats prev = false →
      TransitionEngine.isPullbackExhausted cfg stats prev st.thrustDirection = true →
      TransitionEngine.detectTransition cfg st stats =
        some (.pullbackExhaustion st.thrustDirection stats.imbalance (stats.imbalance - prev))) ∧
    (TransitionEngine.isThrustDown cfg stats prev = false →
      TransitionEngine.isThrustUp cfg stats prev = false →
      TransitionEngine.isPullbackExhausted cfg stats prev st.thrustDirection = false →
      TransitionEngine.isAbsorption cfg stats st.current = true →
      TransitionEngine.detectTransition cfg st stats =
        some (.absorption stats.imbalance stats.tradesPerSec stats.totalVol)) := by
  refine ⟨?_, ?_, ?_⟩
  · intro hor
    cases hdn : TransitionEngine.isThrustDown cfg stats prev
    · cases hup : TransitionEngine.isThrustUp cfg stats prev
      · rw [hdn, hup] at hor
        simp at hor
      · refine ⟨TransitionEngine.Transition.thrustUp stats.imbalance (stats.imbalance - prev)
          stats.tradesPerSec, ?_, rfl⟩
        unfold TransitionEngine.detectTransition
        rw [hprev]
        simp [hdn, hup]
    · refine ⟨TransitionEngine.Transition.thrustDown stats.imbalance (stats.imbalance - prev)
        stats.tradesPerSec, ?_, rfl⟩
      unfold TransitionEngine.detectTransition
      rw [hprev]
      simp [hdn]
  · intro h1 h2 h3
    unfold TransitionEngine.detectTransition
    rw [hprev]
    simp [h1, h2, h3]
  · intro h1 h2 h3 h4
    unfold TransitionEngine.detectTransition
    rw [hprev]
    simp [h1, h2, h3, h4]

/-- Witness for C6: a concrete thrust-down sample on which a pullback
condition could otherwise be in play still yields a thrust event. -/
theorem transition_rule_precedence_witness :
    ∃ tr, TransitionEngine.detectTransition { }
      { window := [], imbalanceHistory :=
          [{ timestamp := 0, imbalance := 0, velocity := 0 },
           { timestamp := 1000, imbalance := -4/5, velocity := 30 }],
        current := "NEUTRAL", entered := none, lastEventAt := 0,
        thrustDirection := some "UP", lastComputed := none }
      { nowTs := 1000, buyVol := 10, sellVol := 90, totalVol := 100,
        buyCount := 3, sellCount := 27, totalCount := 30,
        tradesPerSec := 30, volPerSec := 100, imbalance := -4/5 } = some tr ∧
      tr.isThrust = true :=
  (transition_rule_precedence { }
    { window := [], imbalanceHistory :=
        [{ timestamp := 0, imbalance := 0, velocity := 0 },
         { timestamp := 1000, imbalance := -4/5, velocity := 30 }],
      current := "NEUTRAL", entered := none, lastEventAt := 0,
      thrustDirection := some "UP", lastComputed := none }
    { nowTs := 1000, buyVol := 10, sellVol := 90, totalVol := 100,
      buyCount := 3, sellCount := 27, totalCount := 30,
      tradesPerSec := 30, volPerSec := 100, imbalance := -4/5 }
    0 (by decide)).1 (by decide)

/-- C7: while a side is active in the Pulse Scheduler, a call to
`updateFromRates` that produces the opposite side as candidate switches the
active side exactly when both `minSwitchMs` has elapsed since the last
switch and the candidate pace z-score beats the recorded active z-score by
`switchMarginZ`; otherwise the active side is unchanged. -/
theorem pulse_switch_requires_margin (alphaFn : ℚ → ℚ)
    (cfg : VelocityPulseEngine.Config) (pnow : ℚ) (st : VelocityPulseEngine.State)
    (r : VelocityPulseEngine.Rates) (ts : ℚ) (a c : Side) (cz : ℚ)
    (ha : st.activeSide = some a)
    (hc : VelocityPulseEngine.candidateOf
        (VelocityPulseEngine.paceScoreZ cfg
          (VelocityPulseEngine.applyRates alphaFn st r ts).bid.pace
          (VelocityPulseEngine.applyRates alphaFn st r ts).bidTps)
        (VelocityPulseEngine.paceScoreZ cfg
          (VelocityPulseEngine.applyRates alphaFn st r ts).ask.pace
          (VelocityPulseEngine.applyRates alphaFn st r ts).askTps) = some (c, cz))
    (hca : c ≠ a) :
    (VelocityPulseEngine.updateFromRates alphaFn cfg pnow st r ts).activeSide =
      if cfg.minSwitchMs ≤ ts - st.lastSwitchAt ∧ st.activePaceZ + cfg.switchMarginZ ≤ cz
      then some c else some a := by
  have ha2 : (VelocityPulseEngine.applyRates alphaFn st r ts).activeSide = some a := ha
  have hl : (VelocityPulseEngine.applyRates alphaFn st r ts).lastSwitchAt = st.lastSwitchAt := rfl
  have hz : (VelocityPulseEngine.applyRates alphaFn st r ts).activePaceZ = st.activePaceZ := rfl
  unfold VelocityPulseEngine.updateFromRates VelocityPulseEngine.selectActiveSide
  dsimp only
  rw [hc, ha2]
  dsimp only
  rw [if_neg hca]
  split_ifs with h1 h2 h3 h4 h5
  · exact absurd h2.1 (not_le.mpr h1)
  · exact ha2
  · rfl
  · exact absurd ⟨not_lt.mp h1, h3⟩ h4
  · exact absurd h5.2 h3
  · exact ha2

/-- Witness for C7: with the BID pace far above its baseline and ASK dead,
the scheduler switches from ASK to BID because both switch conditions hold. -/
theorem pulse_switch_requires_margin_witness :
    (VelocityPulseEngine.updateFromRates (fun _ => 1/2) { } 5
      ⟨⟨⟨0, 1, true, 0⟩, ⟨0, 1, true, 0⟩⟩, ⟨⟨0, 1, true, 0⟩, ⟨0, 1, true, 0⟩⟩,
        0, 0, 0, 0, 0, some .ASK, 0, 0, 0⟩
      { buyTradesPerSec := .num 0, sellTradesPerSec := .num 100,
        buyVolPerSec := .num 0, sellVolPerSec := .num 0 } 1000).activeSide =
      some Side.BID := by
  have h := pulse_switch_requires_margin (fun _ => 1/2) { } 5
    ⟨⟨⟨0, 1, true, 0⟩, ⟨0, 1, true, 0⟩⟩, ⟨⟨0, 1, true, 0⟩, ⟨0, 1, true, 0⟩⟩,
      0, 0, 0, 0, 0, some .ASK, 0, 0, 0⟩
    { buyTradesPerSec := .num 0, sellTradesPerSec := .num 100,
      buyVolPerSec := .num 0, sellVolPerSec := .num 0 } 1000
    .ASK .BID (49/51) (by decide) (by decide) (by decide)
  rw [h]
  decide

/-- Helper: the pacing/emit tail either emits nothing and keeps
`lastEmitAt`, or emits an event stamped `nowTs` after a full clamped
minimum interval since `lastEmitAt`, recording `lastEmitAt := nowTs`. -/
theorem pacePhase_emit_keys (cfg : EventEngine.Config) (st : EventEngine.State)
    (s : EventEngine.Computed) (nowTs : ℚ) :
    ((EventEngine.pacePhase cfg st s nowTs).2 = none ∧
     (EventEngine.pacePhase cfg st s nowTs).1.lastEmitAt = st.lastEmitAt) ∨
    (∃ e, (EventEngine.pacePhase cfg st s nowTs).2 = some e ∧ e.timestamp = nowTs ∧
      (EventEngine.pacePhase cfg st s nowTs).1.lastEmitAt = nowTs ∧
      1000 / max 1 cfg.maxEventsPerSec ≤ nowTs - st.lastEmitAt) := by
  unfold EventEngine.pacePhase
  dsimp only
  split_ifs with h1 h2
  · exact Or.inl ⟨rfl, rfl⟩
  · split
    · exact Or.inl ⟨rfl, rfl⟩
    · exact Or.inr ⟨_, rfl, rfl, rfl, not_lt.mp h1⟩
  · split
    · exact Or.inl ⟨rfl, rfl⟩
    · exact Or.inr ⟨_, rfl, rfl, rfl, not_lt.mp h1⟩

/-- Helper: `emitPhase` has the same emit/pacing contract as `pacePhase`
(the sustain gate can only add a "no event" outcome). -/
theorem emitPhase_emit_keys (cfg : EventEngine.Config) (st : EventEngine.State)
    (s : EventEngine.Computed) (nowTs : ℚ) :
    ((EventEngine.emitPhase cfg st s nowTs).2 = none ∧
     (EventEngine.emitPhase cfg st s nowTs).1.lastEmitAt = st.lastEmitAt) ∨
    (∃ e, (EventEngine.emitPhase cfg st s nowTs).2 = some e ∧ e.timestamp = nowTs ∧
      (EventEngine.emitPhase cfg st s nowTs).1.lastEmitAt = nowTs ∧
      1000 / max 1 cfg.maxEventsPerSec ≤ nowTs - st.lastEmitAt) := by
  unfold EventEngine.emitPhase
  split
  · split_ifs with h1
    · exact Or.inl ⟨rfl, rfl⟩
    · exact pacePhase_emit_keys cfg st s nowTs
  · exact pacePhase_emit_keys cfg st s nowTs

/-- Helper: every `ingest` step either emits nothing and preserves
`lastEmitAt`, or emits one event `e` with
`e.timestamp - lastEmitAt ≥ 1000 / max(1, maxEventsPerSec)` and records
`lastEmitAt = e.timestamp`. -/
theorem ingest_emit_keys (cfg : EventEngine.Config) (st : EventEngine.State)
    (sysNow : ℚ) (raw : RawTrade) :
    ((EventEngine.ingest cfg st sysNow raw).2 = none ∧
     (EventEngine.ingest cfg st sysNow raw).1.lastEmitAt = st.lastEmitAt) ∨
    (∃ e, (EventEngine.ingest cfg st sysNow raw).2 = some e ∧
      (EventEngine.ingest cfg st sysNow raw).1.lastEmitAt = e.timestamp ∧
      1000 / max 1 cfg.maxEventsPerSec ≤ e.timestamp - st.lastEmitAt) := by
  have tailCase :
      ∀ base : EventEngine.State, ∀ t : Tick,
        base.lastEmitAt = st.lastEmitAt →
        ((EventEngine.emitPhase cfg base (EventEngine.stepStats cfg st t) t.timestamp).2 = none ∧
         (EventEngine.emitPhase cfg base (EventEngine.stepStats cfg st t) t.timestamp).1.lastEmitAt
            = st.lastEmitAt) ∨
        (∃ e, (EventEngine.emitPhase cfg base (EventEngine.stepStats cfg st t) t.timestamp).2 = some e ∧
          (EventEngine.emitPhase cfg base (EventEngine.stepStats cfg st t) t.timestamp).1.lastEmitAt
            = e.timestamp ∧
          1000 / max 1 cfg.maxEventsPerSec ≤ e.timestamp - st.lastEmitAt) := by
    intro base t hbase
    rcases emitPhase_emit_keys cfg base (EventEngine.stepStats cfg st t) t.timestamp with
      ⟨h1, h2⟩ | ⟨e, h1, h2, h3, h4⟩
    · exact Or.inl ⟨h1, by rw [h2, hbase]⟩
    · refine Or.inr ⟨e, h1, by rw [h3, h2], ?_⟩
      rw [h2, ← hbase]
      exact h4
  cases hn : normalizeTrade sysNow raw with
  | none => left; constructor <;> simp [EventEngine.ingest, hn]
  | some t =>
    simp only [EventEngine.ingest, hn]
    split
    · exact Or.inl ⟨rfl, rfl⟩
    · split
      · exact Or.inl ⟨rfl, maybeExitDominance_lastEmitAt cfg _ _⟩
      · split
        · exact Or.inl ⟨rfl, maybeExitDominance_lastEmitAt cfg _ _⟩
        · split
          · exact tailCase _ t (maybeExitDominance_lastEmitAt cfg _ _)
          · split
            · exact tailCase _ t (enterOrContinue_lastEmitAt cfg _ _ _)
            · split
              · exact tailCase _ t (enterOrContinue_lastEmitAt cfg _ _ _)
              · exact Or.inl ⟨rfl, maybeExitDominance_lastEmitAt cfg _ _⟩

/-- Helper: over any run, the emitted events form a chain paced by the
clamped minimum interval, and the first event keeps that distance from the
starting `lastEmitAt`. -/
theorem run_chain_aux (cfg : EventEngine.Config) (raws : List (ℚ × RawTrade)) :
    ∀ st : EventEngine.State,
      List.Chain' (fun a b : EventEngine.Event =>
        1000 / max 1 cfg.maxEventsPerSec ≤ b.timestamp - a.timestamp)
        (EventEngine.run cfg st raws).2 ∧
      (∀ e, (EventEngine.run cfg st raws).2.head? = some e →
        1000 / max 1 cfg.maxEventsPerSec ≤ e.timestamp - st.lastEmitAt) := by
  induction raws with
  | nil =>
    intro st
    constructor
    · simp [EventEngine.run]
    · intro e h
      simp [EventEngine.run] at h
  | cons p rest ih =>
    intro st
    obtain ⟨sysNow, raw⟩ := p
    rcases hi : EventEngine.ingest cfg st sysNow raw with ⟨st1, ev⟩
    rcases ingest_emit_keys cfg st sysNow raw with ⟨hnone, hlast⟩ | ⟨e, hsome, hlast, hpace⟩
    · rw [hi] at hnone hlast
      dsimp only at hnone hlast
      subst hnone
      simp only [EventEngine.run, hi]
      obtain ⟨ihc, ihh⟩ := ih st1
      refine ⟨ihc, fun e2 h2 => ?_⟩
      have h3 := ihh e2 h2
      rwa [hlast] at h3
    · rw [hi] at hsome hlast
      dsimp only at hsome hlast
      subst hsome
      simp only [EventEngine.run, hi]
      obtain ⟨ihc, ihh⟩ := ih st1
      constructor
      · rw [List.chain'_cons']
        refine ⟨fun y hy => ?_, ihc⟩
        have hgap := ihh y hy
        rwa [hlast] at hgap
      · intro e2 h2
        simp only [List.head?_cons, Option.some.injEq] at h2
        rw [← h2]
        exact hpace

/-- C1 (amended): in any run of the Dominance Detector, consecutive emitted
events are at least `1000 / max(1, maxEventsPerSec)` milliseconds apart —
the source clamps the configured rate to at least 1 event per second. -/
theorem dominance_pacing_clamped (cfg : EventEngine.Config)
    (st : EventEngine.State) (raws : List (ℚ × RawTrade)) :
    List.Chain' (fun a b : EventEngine.Event =>
      1000 / max 1 cfg.maxEventsPerSec ≤ b.timestamp - a.timestamp)
      (EventEngine.run cfg st raws).2 :=
  (run_chain_aux cfg raws st).1

/-- Counterexample to C1 as stated: with `maxEventsPerSec = 1/2` the claimed
bound would be 2000 ms, but the engine emits two events only 1000 ms apart
(the code clamps the rate with `Math.max(1, maxEventsPerSec)`). -/
theorem pacing_claim_fails_below_one_event_per_sec :
    ((EventEngine.run { minTradesPerSec := 0, maxEventsPerSec := 1/2 } EventEngine.initState
        [(0, { side := some "ASK", timestamp := some (.num 1000), volume := some (.num 10) }),
         (0, { side := some "ASK", timestamp := some (.num 2000), volume := some (.num 10) })]).2.map
        EventEngine.Event.timestamp = [1000, 2000]) ∧
    ¬ List.Chain' (fun a b : EventEngine.Event =>
        1000 / EventEngine.Config.maxEventsPerSec { minTradesPerSec := 0, maxEventsPerSec := 1/2 }
          ≤ b.timestamp - a.timestamp)
      (EventEngine.run { minTradesPerSec := 0, maxEventsPerSec := 1/2 } EventEngine.initState
        [(0, { side := some "ASK", timestamp := some (.num 1000), volume := some (.num 10) }),
         (0, { side := some "ASK", timestamp := some (.num 2000), volume := some (.num 10) })]).2 := by
  have hmapeq : (EventEngine.run { minTradesPerSec := 0, maxEventsPerSec := 1/2 }
      EventEngine.initState
      [(0, { side := some "ASK", timestamp := some (.num 1000), volume := some (.num 10) }),
       (0, { side := some "ASK", timestamp := some (.num 2000), volume := some (.num 10) })]).2.map
      EventEngine.Event.timestamp = [1000, 2000] := by decide
  refine ⟨hmapeq, fun hch => ?_⟩
  have hmap := (@List.chain'_map _ _
    (fun x y : ℚ =>
      1000 / EventEngine.Config.maxEventsPerSec { minTradesPerSec := 0, maxEventsPerSec := 1/2 }
        ≤ y - x)
    EventEngine.Event.timestamp _).mpr hch
  rw [hmapeq] at hmap
  have := (List.chain'_cons.mp hmap).1
  revert this
  decide

/-- One Rolling Window step as the engines perform it on every ingestion:
`push(tick)` followed by `prune(tick.timestamp)`. -/
def pushPrune (windowMs : ℚ) (maxWindowTrades : ℕ) (w : List Tick) (t : Tick) :
    List Tick :=
  pruneWindow windowMs maxWindowTrades (w ++ [t]) t.timestamp

/-- Helper: in a timestamp-sorted list, everything surviving the
`dropWhile (timestamp < c)` front-drop is at least `c`. -/
theorem mem_dropWhile_ge (c : ℚ) (l : List Tick)
    (hp : l.Pairwise fun a b : Tick => a.timestamp ≤ b.timestamp) :
    ∀ x ∈ l.dropWhile fun t => decide (t.timestamp < c), c ≤ x.timestamp := by
  induction l with
  | nil => intro x hx; simp [List.dropWhile] at hx
  | cons h tl ih =>
    intro x hx
    rw [List.dropWhile_cons] at hx
    split_ifs at hx with hc
    · exact ih (List.Pairwise.of_cons hp) x hx
    · have hhc : ¬ h.timestamp < c := by simpa using hc
      rcases List.mem_cons.mp hx with rfl | hxl
      · exact not_lt.mp hhc
      · exact le_trans (not_lt.mp hhc) ((List.pairwise_cons.mp hp).1 x hxl)

/-- Helper: pruning returns a sublist of its input. -/
theorem pruneWindow_sublist (windowMs : ℚ) (maxWindowTrades : ℕ)
    (w : List Tick) (nowTs : ℚ) :
    List.Sublist (pruneWindow windowMs maxWindowTrades w nowTs) w := by
  unfold pruneWindow
  dsimp only
  split_ifs with h
  · exact (List.drop_sublist _ _).trans (List.dropWhile_sublist _)
  · exact List.dropWhile_sublist _

/-- Helper: after pruning, the window never exceeds the safety cap. -/
theorem pruneWindow_length (windowMs : ℚ) (maxWindowTrades : ℕ)
    (w : List Tick) (nowTs : ℚ) :
    (pruneWindow windowMs maxWindowTrades w nowTs).length ≤ maxWindowTrades := by
  unfold pruneWindow
  dsimp only
  split_ifs with h
  · rw [List.length_drop]
    omega
  · exact Nat.le_of_not_lt h

/-- Helper: after pruning a timestamp-sorted window, every surviving tick
is within `windowMs` of `nowTs`. -/
theorem pruneWindow_mem_ts (windowMs : ℚ) (maxWindowTrades : ℕ)
    (w : List Tick) (nowTs : ℚ)
    (hp : w.Pairwise fun a b : Tick => a.timestamp ≤ b.timestamp) :
    ∀ x ∈ pruneWindow windowMs maxWindowTrades w nowTs,
      nowTs - windowMs ≤ x.timestamp := by
  intro x hx
  have hx2 : x ∈ w.dropWhile fun t => decide (t.timestamp < nowTs - windowMs) := by
    unfold pruneWindow at hx
    dsimp only at hx
    split_ifs at hx with h
    · exact List.drop_subset _ _ hx
    · exact hx
  exact mem_dropWhile_ge (nowTs - windowMs) w hp x hx2

/-- Helper: fold invariant for C2 under sorted pushes — after folding
`pushPrune` over `t :: rest` starting from a window `w` with
`(w ++ [t]) ++ rest` sorted, the result is capped, sorted, and every
survivor is within `windowMs` of the last pushed timestamp. -/
theorem runWindow_aux (windowMs : ℚ) (maxWindowTrades : ℕ) :
    ∀ (rest : List Tick) (t : Tick) (w : List Tick),
      ((w ++ [t]) ++ rest).Pairwise (fun a b : Tick => a.timestamp ≤ b.timestamp) →
      (rest.foldl (pushPrune windowMs maxWindowTrades)
          (pushPrune windowMs maxWindowTrades w t)).length ≤ maxWindowTrades ∧
      (rest.foldl (pushPrune windowMs maxWindowTrades)
          (pushPrune windowMs maxWindowTrades w t)).Pairwise
        (fun a b : Tick => a.timestamp ≤ b.timestamp) ∧
      ∀ x ∈ rest.foldl (pushPrune windowMs maxWindowTrades)
          (pushPrune windowMs maxWindowTrades w t),
        ((t :: rest).getLast (by simp)).timestamp - windowMs ≤ x.timestamp := by
  intro rest
  induction rest with
  | nil =>
    intro t w hp
    rw [List.append_nil] at hp
    refine ⟨pruneWindow_length _ _ _ _, ?_, ?_⟩
    · exact List.Pairwise.sublist (pruneWindow_sublist _ _ _ _) hp
    · intro x hx
      exact pruneWindow_mem_ts _ _ _ _ hp x hx
  | cons t2 rest2 ih =>
    intro t w hp
    have hsub : List.Sublist ((pushPrune windowMs maxWindowTrades w t ++ [t2]) ++ rest2)
        (((w ++ [t]) ++ [t2]) ++ rest2) := by
      exact ((pruneWindow_sublist _ _ _ _).append (List.Sublist.refl [t2])).append
        (List.Sublist.refl rest2)
    have hp2 : ((pushPrune windowMs maxWindowTrades w t ++ [t2]) ++ rest2).Pairwise
        (fun a b : Tick => a.timestamp ≤ b.timestamp) := by
      refine List.Pairwise.sublist hsub ?_
      have : ((w ++ [t]) ++ [t2]) ++ rest2 = (w ++ [t]) ++ t2 :: rest2 := by
        rw [List.append_assoc (w ++ [t])]
        rfl
      rw [this]
      exact hp
    obtain ⟨h1, h2, h3⟩ := ih t2 (pushPrune windowMs maxWindowTrades w t) hp2
    refine ⟨h1, h2, ?_⟩
    intro x hx
    have := h3 x hx
    rwa [List.getLast_cons (by simp : t2 :: rest2 ≠ [])]

/-- C2 (amended): for any sequence of pushes whose timestamps are
non-decreasing (the caller contract assumed by the front-dropping prune),
after the prune that follows the last push the window holds at most
`maxWindowTrades` ticks, and every remaining tick's timestamp is at least
`lastPushTimestamp - windowMs`. -/
theorem window_bound_sorted (windowMs : ℚ) (maxWindowTrades : ℕ)
    (ticks : List Tick)
    (hsort : ticks.Pairwise fun a b : Tick => a.timestamp ≤ b.timestamp)
    (hne : ticks ≠ []) :
    (ticks.foldl (pushPrune windowMs maxWindowTrades) []).length ≤ maxWindowTrades ∧
    ∀ x ∈ ticks.foldl (pushPrune windowMs maxWindowTrades) [],
      (ticks.getLast hne).timestamp - windowMs ≤ x.timestamp := by
  cases ticks with
  | nil => exact absurd rfl hne
  | cons t rest =>
    have hp : (([] ++ [t]) ++ rest).Pairwise
        (fun a b : Tick => a.timestamp ≤ b.timestamp) := by
      simpa using hsort
    obtain ⟨h1, _, h3⟩ := runWindow_aux windowMs maxWindowTrades rest t [] hp
    exact ⟨h1, fun x hx => h3 x hx⟩

/-- Witness for C2 (amended) on a concrete sorted push sequence that
exercises both the time eviction and the safety cap. -/
theorem window_bound_sorted_witness :
    ((([{ timestamp := 1000, side := .ASK, volume := 1, price := .nonfinite, symbol := "" },
        { timestamp := 1100, side := .BID, volume := 2, price := .nonfinite, symbol := "" }] :
          List Tick).foldl (pushPrune 200 1) []).length ≤ 1) ∧
    ∀ x ∈ ([{ timestamp := 1000, side := .ASK, volume := 1, price := .nonfinite, symbol := "" },
        { timestamp := 1100, side := .BID, volume := 2, price := .nonfinite, symbol := "" }] :
          List Tick).foldl (pushPrune 200 1) [],
      (([{ timestamp := 1000, side := .ASK, volume := 1, price := .nonfinite, symbol := "" },
        { timestamp := 1100, side := .BID, volume := 2, price := .nonfinite, symbol := "" }] :
          List Tick).getLast (by decide)).timestamp - 200 ≤ x.timestamp :=
  window_bound_sorted 200 1
    [{ timestamp := 1000, side := .ASK, volume := 1, price := .nonfinite, symbol := "" },
     { timestamp := 1100, side := .BID, volume := 2, price := .nonfinite, symbol := "" }]
    (by decide) (by decide)

/-- Counterexample to C2 as stated: with out-of-order pushes the
front-dropping prune keeps a tick far older than
`lastPushTimestamp - windowMs` (the claim quantifies over any push
sequence, but the code only ever drops a prefix). -/
theorem window_bound_fails_out_of_order :
    ∃ x ∈ ([{ timestamp := 5000, side := .ASK, volume := 1, price := .nonfinite, symbol := "" },
        { timestamp := 100, side := .ASK, volume := 1, price := .nonfinite, symbol := "" },
        { timestamp := 5000, side := .ASK, volume := 1, price := .nonfinite, symbol := "" }] :
          List Tick).foldl (pushPrune 200 1000) [],
      x.timestamp <
        (([{ timestamp := 5000, side := .ASK, volume := 1, price := .nonfinite, symbol := "" },
          { timestamp := 100, side := .ASK, volume := 1, price := .nonfinite, symbol := "" },
          { timestamp := 5000, side := .ASK, volume := 1, price := .nonfinite, symbol := "" }] :
            List Tick).getLast (by decide)).timestamp - 200 := by
  decide

/-- C9: for each of the three analyzers (Dominance Detector, Transition
Detector, Pulse Scheduler) and every starting state, calling `reset` twice
in a row produces exactly the state produced by calling it once. -/
theorem reset_idempotent (e : EventEngine.State) (t : TransitionEngine.State)
    (v : VelocityPulseEngine.State) (pnow : ℚ) :
    EventEngine.reset (EventEngine.reset e) = EventEngine.reset e ∧
    TransitionEngine.reset (TransitionEngine.reset t) = TransitionEngine.reset t ∧
    VelocityPulseEngine.reset pnow (VelocityPulseEngine.reset pnow v) =
      VelocityPulseEngine.reset pnow v :=
  ⟨rfl, rfl, rfl⟩

/-- C8: when normalization rejects a raw tick (side not ASK/BID, or a
non-finite timestamp or volume), `ingest` of the Dominance Detector and of
the Transition Detector returns no event and leaves the full state
(window, state machine, lastComputed) untouched. -/
theorem normalize_failure_no_effect (ecfg : EventEngine.Config)
    (tcfg : TransitionEngine.Config) (est : EventEngine.State)
    (tst : TransitionEngine.State) (sysNow : ℚ) (raw : RawTrade)
    (h : normalizeTrade sysNow raw = none) :
    EventEngine.ingest ecfg est sysNow raw = (est, none) ∧
    TransitionEngine.ingest tcfg tst sysNow raw = (tst, none) := by
  constructor
  · unfold EventEngine.ingest
    rw [h]
  · unfold TransitionEngine.ingest
    rw [h]

/-- Witness for C8 at a concrete malformed tick (no side field at all). -/
theorem normalize_failure_no_effect_witness :
    normalizeTrade 0 { volume := some (.num 5) } = none ∧
    EventEngine.ingest { } EventEngine.initState 0 { volume := some (.num 5) } =
      (EventEngine.initState, none) ∧
    TransitionEngine.ingest { } TransitionEngine.initState 0 { volume := some (.num 5) } =
      (TransitionEngine.initState, none) := by
  refine ⟨by decide, ?_⟩
  exact normalize_failure_no_effect { } { } EventEngine.initState
    TransitionEngine.initState 0 { volume := some (.num 5) } (by decide)

/-- C3: whenever the selected dominance metric's denominator (total volume
or total trade count) of the window is 0 — in particular on the empty
window — the Dominance Detector's two ratios and the Transition Detector's
imbalance are all 0; the guarded computation performs no division at all in
that case. -/
theorem neutral_ratio_on_zero_denominator (ecfg : EventEngine.Config)
    (tcfg : TransitionEngine.Config) (w wt : List Tick) (nowE nowT : ℚ)
    (he : selMetric ecfg.dominanceMetric (sumSide w .ASK + sumSide w .BID)
        (countSide w .ASK + countSide w .BID) = 0)
    (ht : selMetric tcfg.dominanceMetric (sumSide wt .ASK + sumSide wt .BID)
        (countSide wt .ASK + countSide wt .BID) = 0) :
    (EventEngine.compute ecfg w nowE).buyRatio = 0 ∧
    (EventEngine.compute ecfg w nowE).sellRatio = 0 ∧
    (TransitionEngine.computeStats tcfg wt nowT).imbalance = 0 := by
  unfold EventEngine.compute TransitionEngine.computeStats
  simp only [he, ht]
  norm_num

/-- Witness for C3 at the empty window (for both engines, with default
configurations). -/
theorem neutral_ratio_on_zero_denominator_witness :
    selMetric (EventEngine.Config.dominanceMetric { }) (sumSide [] .ASK + sumSide [] .BID)
      (countSide [] .ASK + countSide [] .BID) = 0 ∧
    (EventEngine.compute { } [] 0).buyRatio = 0 ∧
    (EventEngine.compute { } [] 0).sellRatio = 0 ∧
    (TransitionEngine.computeStats { } [] 0).imbalance = 0 := by
  refine ⟨by decide, ?_⟩
  exact neutral_ratio_on_zero_denominator { } { } [] [] 0 0 (by decide) (by decide)

/-- C10: an ingestion by the Transition Detector that leaves the imbalance
history with fewer than two samples emits no event; in particular the first
valid tick after construction or reset cannot emit, because every detection
rule needs the previous-imbalance lookup, which requires two samples. -/
theorem updateState_imbalanceHistory (st : TransitionEngine.State)
    (tr : TransitionEngine.Transition) (nowTs : ℚ) :
    (TransitionEngine.updateState st tr nowTs).imbalanceHistory = st.imbalanceHistory := by
  cases tr <;> rfl

/-- Helper: every Transition Detector ingestion either emits nothing or
ends with at least two samples in the imbalance history. -/
theorem ingest_none_or_long_history (cfg : TransitionEngine.Config)
    (st : TransitionEngine.State) (sysNow : ℚ) (raw : RawTrade) :
    (TransitionEngine.ingest cfg st sysNow raw).2 = none ∨
    2 ≤ (TransitionEngine.ingest cfg st sysNow raw).1.imbalanceHistory.length := by
  cases hn : normalizeTrade sysNow raw with
  | none => left; simp [TransitionEngine.ingest, hn]
  | some t =>
    simp only [TransitionEngine.ingest, hn]
    split
    · left; rfl
    · split
      · left; rfl
      · rename_i tr hdet
        right
        simp only [updateState_imbalanceHistory]
        by_contra hlt
        push_neg at hlt
        rw [detectTransition_short cfg _ _ hlt] at hdet
        exact Option.noConfusion hdet

theorem no_event_with_short_history (cfg : TransitionEngine.Config)
    (st : TransitionEngine.State) (sysNow : ℚ) (raw : RawTrade)
    (h : (TransitionEngine.ingest cfg st sysNow raw).1.imbalanceHistory.length < 2) :
    (TransitionEngine.ingest cfg st sysNow raw).2 = none := by
  rcases ingest_none_or_long_history cfg st sysNow raw with hnone | hlong
  · exact hnone
  · omega

/-- Witness for C10: the first valid tick ingested after reset leaves a
single-sample history and emits nothing. -/
theorem no_event_with_short_history_witness :
    ((TransitionEngine.ingest { } TransitionEngine.initState 0
        { side := some "ASK", timestamp := some (.num 1000), volume := some (.num 10) }).1.imbalanceHistory.length < 2) ∧
    (TransitionEngine.ingest { } TransitionEngine.initState 0
        { side := some "ASK", timestamp := some (.num 1000), volume := some (.num 10) }).2 = none := by
  refine ⟨by decide, ?_⟩
  exact no_event_with_short_history { } TransitionEngine.initState 0
    { side := some "ASK", timestamp := some (.num 1000), volume := some (.num 10) } (by decide)
